import Mathlib

/-
  Verification development for the text-match repository's service-scoped
  row-level authorization, audit-trail, PII-redaction and import/export
  subsystem.

  The definitions below are a shallow embedding of the TypeScript sources:
    - src/lib/auth/rbac.ts                (role policy, canAccessService)
    - src/lib/auth/translation-access.ts  (validateTranslationAccess,
                                           addKeyServiceAccessFilter,
                                           validateServiceAccess)
    - src/lib/audit/event-logger.ts       (logEvent)
    - src/lib/audit/pii-redaction.ts      (redactSensitiveData)
    - src/routes/api/translations/$id.ts  (PUT handler)
    - src/routes/api/import.ts            (generateDiffReport, executeImport)
    - src/routes/api/export.ts            (generateExportData)

  Database tables are modelled as lists of rows; a SQL point lookup
  (`... where eq(col, x) limit 1`) becomes `List.find?`, and a JavaScript
  `Map` built from a row list keeps the last entry for a duplicated key,
  which is modelled by `lastFind?`.  Server-assigned timestamps
  (`createdAt` / `updatedAt` columns, `new Date()`) carry no information
  used by any claim and are left out of the row models; `crypto.randomUUID`
  is modelled by a deterministic fresh-id counter threaded through the
  state-transforming functions.
-/

namespace TextMatch

/-! ## Role policy (src/lib/auth/rbac.ts) -/

/-- Permission vocabulary: the `PERMISSIONS` constant of rbac.ts, a closed
union of the strings "read" and "write". -/
inductive Permission where
  | read
  | write
deriving DecidableEq, Repr

/-- Identity shape consumed from the identity resolver: a subject id plus an
optional role list (`roles: string[] | undefined`). -/
structure IdentityUser where
  sub : String
  roles : Option (List String)
deriving DecidableEq, Repr

/-- Model of `hasRole` (rbac.ts): `if (!user?.roles) return false;` then
`user.roles.includes(role)`.  A JavaScript empty array is truthy, so
`roles: []` reaches the `includes` call and still yields false. -/
def hasRole (user : Option IdentityUser) (role : String) : Bool :=
  match user with
  | none => false
  | some u =>
    match u.roles with
    | none => false
    | some rs => rs.contains role

/-- Model of `hasAnyRole` (rbac.ts). -/
def hasAnyRole (user : Option IdentityUser) (roles : List String) : Bool :=
  match user with
  | none => false
  | some u =>
    match u.roles with
    | none => false
    | some rs => roles.any (fun r => rs.contains r)

/-- Model of `hasAllRoles` (rbac.ts). -/
def hasAllRoles (user : Option IdentityUser) (roles : List String) : Bool :=
  match user with
  | none => false
  | some u =>
    match u.roles with
    | none => false
    | some rs => roles.all (fun r => rs.contains r)

/-- Model of `isAdmin` (rbac.ts). -/
def isAdmin (user : Option IdentityUser) : Bool :=
  hasRole user "Admin"

/-- Model of `isOwner` (rbac.ts): the role check, not service ownership. -/
def isOwner (user : Option IdentityUser) : Bool :=
  hasRole user "Owner"

/-- Model of `canEdit` (rbac.ts). -/
def canEdit (user : Option IdentityUser) : Bool :=
  hasAnyRole user ["Admin", "Owner", "Editor"]

/-- Model of `canReview` (rbac.ts). -/
def canReview (user : Option IdentityUser) : Bool :=
  hasAnyRole user ["Admin", "Owner", "Editor", "Reviewer"]

/-- Model of `canView` (rbac.ts). -/
def canView (user : Option IdentityUser) : Bool :=
  hasAnyRole user ["Admin", "Owner", "Editor", "Reviewer", "Viewer"]

/-- Role-only permission decision: the `switch (permission)` block that
appears verbatim in canAccessService, validateServiceAccess and
validateTranslationAccess (read requires canView, write requires canEdit). -/
def rolePermissionCheck (user : Option IdentityUser) (permission : Permission) : Bool :=
  match permission with
  | .read => canView user
  | .write => canEdit user

/-! ## Row and state model (src/lib/db/schema/l10n.schema.ts) -/

/-- Service row: `service` table. -/
structure Service where
  id : String
  code : String
  name : String
  owners : List String
deriving DecidableEq, Repr

/-- Key row: `l10n_key` table; `serviceId` and `namespaceId` are nullable. -/
structure L10nKey where
  id : String
  serviceId : Option String
  namespaceId : Option String
  keyName : String
  tags : List String
  status : String
deriving DecidableEq, Repr

/-- Translation row: `translation` table; `value` and `checksum` are
nullable, `version` is an integer column. -/
structure Translation where
  id : String
  keyId : String
  locale : String
  value : Option String
  status : String
  version : Int
  checksum : Option String
deriving DecidableEq, Repr

/-- JSON-shaped values stored in the `before` / `after` jsonb columns of the
event table, and the payload shape consumed by the redaction engine. -/
inductive Jsonish where
  | str (s : String)
  | num (n : Int)
  | boolean (b : Bool)
  | null
  | arr (items : List Jsonish)
  | obj (fields : List (String × Jsonish))

/-- Event row: `event` table (append-only audit record). -/
structure Event where
  id : String
  actor : String
  action : String
  entityType : String
  entityId : String
  before : Option Jsonish
  after : Option Jsonish

/-- Persistent state: the four tables the core reads and writes. -/
structure DbState where
  services : List Service
  keys : List L10nKey
  translations : List Translation
  events : List Event

/-- Point lookup of a service row by id (`select ... where eq(service.id, x)
limit 1`). -/
def findService (st : DbState) (serviceId : String) : Option Service :=
  st.services.find? (fun s => s.id == serviceId)

/-- Helper modelling a JavaScript `Map` built by inserting every element of a
list: `get` returns the last inserted entry for a key, i.e. the last list
element satisfying the predicate. -/
def lastFind? (p : α → Bool) (l : List α) : Option α :=
  (l.filter p).getLast?

/-! ## Access resolvers

The database lookup inside each resolver's `try` block is factored into an
`Except`-valued argument so that a thrown persistence error (`.error`) is an
explicit input; the pure wrappers instantiate it with the successful lookup
on a `DbState`. -/

/-- Core of `validateServiceAccess` (translation-access.ts, service-access
module, lines 359-395): deny when unauthenticated, allow admins before any
lookup, treat a thrown lookup (`catch`) and a missing row as deny, allow
owners, otherwise fall back to the role-only decision. -/
def validateServiceAccessCore (user : Option IdentityUser)
    (lookup : Except String (Option Service)) (permission : Permission) : Bool :=
  match user with
  | none => false
  | some u =>
    if isAdmin (some u) then true
    else
      match lookup with
      | .error _ => false
      | .ok none => false
      | .ok (some svc) =>
        if svc.owners.contains u.sub then true
        else rolePermissionCheck (some u) permission

/-- Model of `validateServiceAccess` over a database state. -/
def validateServiceAccess (user : Option IdentityUser) (serviceId : String)
    (permission : Permission) (st : DbState) : Bool :=
  validateServiceAccessCore user (.ok (findService st serviceId)) permission

/-- Core of `isServiceOwner` (rbac.ts lines 200-220): no admin short-circuit;
a thrown lookup or a missing service row yields false. -/
def isServiceOwnerCore (user : Option IdentityUser)
    (lookup : Except String (Option Service)) : Bool :=
  match user with
  | none => false
  | some u =>
    match lookup with
    | .error _ => false
    | .ok none => false
    | .ok (some svc) => svc.owners.contains u.sub

/-- Model of `isServiceOwner` over a database state. -/
def isServiceOwner (user : Option IdentityUser) (serviceId : String)
    (st : DbState) : Bool :=
  isServiceOwnerCore user (.ok (findService st serviceId))

/-- Model of `canAccessService` (rbac.ts lines 127-149): admin, then service
ownership, then the role-only decision.  Note the function never inspects
whether the service row exists on the role-only path. -/
def canAccessService (user : Option IdentityUser) (serviceId : String)
    (permission : Permission) (st : DbState) : Bool :=
  match user with
  | none => false
  | some u =>
    if isAdmin (some u) then true
    else if isServiceOwner (some u) serviceId st then true
    else rolePermissionCheck (some u) permission

/-- Row produced by the translation -> key -> service join inside
`validateTranslationAccess`: the key's nullable `serviceId` plus the owners
array of the left-joined service row (null when the join misses). -/
structure TranslationJoinRow where
  serviceId : Option String
  serviceOwners : Option (List String)
deriving DecidableEq, Repr

/-- Join lookup of `validateTranslationAccess`: the translation row by id,
inner-joined with its key (a missing key row drops the result), left-joined
with the key's service. -/
def translationJoinLookup (st : DbState) (translationId : String) :
    Option TranslationJoinRow :=
  match st.translations.find? (fun t => t.id == translationId) with
  | none => none
  | some t =>
    match st.keys.find? (fun k => k.id == t.keyId) with
    | none => none
    | some k =>
      some { serviceId := k.serviceId
             serviceOwners := (k.serviceId.bind (fun sid => findService st sid)).map Service.owners }

/-- Core of `validateTranslationAccess` (translation-access.ts lines 29-86):
deny when unauthenticated, allow admins before the lookup, deny on a thrown
lookup or an empty join, use the role-only fallback for keys with no
service, allow owners, otherwise the role-only decision. -/
def validateTranslationAccessCore (user : Option IdentityUser)
    (lookup : Except String (Option TranslationJoinRow)) (permission : Permission) : Bool :=
  match user with
  | none => false
  | some u =>
    if isAdmin (some u) then true
    else
      match lookup with
      | .error _ => false
      | .ok none => false
      | .ok (some row) =>
        match row.serviceId with
        | none => rolePermissionCheck (some u) permission
        | some _ =>
          if (match row.serviceOwners with
              | some os => os.contains u.sub
              | none => false) then true
          else rolePermissionCheck (some u) permission

/-- Model of `validateTranslationAccess` over a database state. -/
def validateTranslationAccess (user : Option IdentityUser) (translationId : String)
    (permission : Permission) (st : DbState) : Bool :=
  validateTranslationAccessCore user (.ok (translationJoinLookup st translationId)) permission

/-! ## Query filter builder (addKeyServiceAccessFilter) -/

/-- Predicate of the ownership subquery used by `addKeyServiceAccessFilter`:
the key's service exists and lists the user among its owners. -/
def ownsServiceOfKey (u : IdentityUser) (st : DbState) (k : L10nKey) : Bool :=
  match k.serviceId with
  | none => false
  | some sid => st.services.any (fun s => s.id == sid && s.owners.contains u.sub)

/-- Row-level meaning of `addKeyServiceAccessFilter` (translation-access.ts,
service-access module, lines 310-349): the set of key rows the filtered list
query returns.  No user filters everything out (the impossible-id
condition); admins and read-with-view users see every row; write without
edit capability sees nothing; otherwise rows whose service the user owns
plus rows with no service (legacy data) pass. -/
def keyFilterAdmits (user : Option IdentityUser) (permission : Permission)
    (st : DbState) (k : L10nKey) : Bool :=
  match user with
  | none => false
  | some u =>
    if isAdmin (some u) then true
    else if permission == .read && canView (some u) then true
    else if permission == .write && !canEdit (some u) then false
    else ownsServiceOfKey u st k || k.serviceId.isNone

/-- Single-resource access check for a key row, as named by the claim: on a
key with a service it is `validateServiceAccess` on that service; on a key
with no service it is the role-only fallback (the shape of
`validateTranslationAccessByKey`, translation-access.ts lines 96-141). -/
def keyPointCheck (user : Option IdentityUser) (permission : Permission)
    (st : DbState) (k : L10nKey) : Bool :=
  match user with
  | none => false
  | some u =>
    if isAdmin (some u) then true
    else
      match k.serviceId with
      | none => rolePermissionCheck (some u) permission
      | some sid => validateServiceAccess (some u) sid permission st

/-- Referential integrity of a key row's service reference: the `serviceId`
column is a foreign key into `service` (l10n.schema.ts), so it is either
null or names an existing service row. -/
def keyServiceResolves (st : DbState) (k : L10nKey) : Prop :=
  k.serviceId = none ∨ ∃ s ∈ st.services, k.serviceId = some s.id

instance (st : DbState) (k : L10nKey) : Decidable (keyServiceResolves st k) := by
  unfold keyServiceResolves
  infer_instance

/-! ## Shared route vocabulary -/

/-- Locale vocabulary accepted by the zod schemas (db/index shared module and
translations/$id.ts). -/
def supportedLocales : List String :=
  ["en", "es", "fr", "de", "it", "pt", "ru", "ja", "ko", "zh", "ar", "hi"]

/-- Status vocabulary (`translationStatusEnum`). -/
def translationStatusEnum : List String := ["draft", "active", "archived"]

/-- Outcome vocabulary of the modelled route handlers (HTTP status classes). -/
inductive HttpOutcome where
  | ok
  | created
  | badRequest
  | unauthorized
  | forbidden
  | notFound
  | serverError
deriving DecidableEq, Repr

/-- Encoding of a nullable string into a jsonb snapshot value. -/
def jsonOfOptStr : Option String → Jsonish
  | some s => .str s
  | none => .null

/-! ## Translation update endpoint (src/routes/api/translations/$id.ts PUT) -/

/-- Request body of the PUT handler after JSON parsing: `locale` is required,
`value` and `status` optional (updateTranslationSchema). -/
structure UpdateTranslationBody where
  locale : String
  value : Option String
  status : Option String
deriving DecidableEq, Repr

/-- Zod validation of `updateTranslationSchema`: the locale must be one of
the twelve supported codes and a given status one of the three enum values. -/
def parseUpdateTranslationBody (b : UpdateTranslationBody) : Option UpdateTranslationBody :=
  if supportedLocales.contains b.locale
      && (match b.status with
          | none => true
          | some s => translationStatusEnum.contains s) then
    some b
  else none

/-- Model of the PUT /api/translations/$id handler.  `eventId` stands for the
`crypto.randomUUID()` of the logged event and `eventInsertFails` models the
audit insert inside `logEvent` throwing.  The handler performs the
`db.update` and the `logEvent` insert as two separate top-level calls with
no enclosing transaction, so a failing audit insert leaves the already
persisted translation update in place and surfaces as a 500.  A translation
whose `keyId` has no key row would crash the handler before any write
(impossible under the schema's foreign key); that path is modelled as a
server error with unchanged state. -/
def putTranslation (user : Option IdentityUser) (id : String)
    (body : UpdateTranslationBody) (st : DbState) (eventId : String)
    (eventInsertFails : Bool) : HttpOutcome × DbState :=
  match user with
  | none => (.unauthorized, st)
  | some u =>
    if id == "" then (.badRequest, st)
    else
      match parseUpdateTranslationBody body with
      | none => (.badRequest, st)
      | some pb =>
        match st.translations.find? (fun t => t.id == id) with
        | none => (.notFound, st)
        | some t =>
          match st.keys.find? (fun k => k.id == t.keyId) with
          | none => (.serverError, st)
          | some k =>
            let allowed :=
              match k.serviceId with
              | some sid => validateServiceAccess (some u) sid .write st
              | none =>
                match u.roles with
                | some rs => rs.contains "Admin" || rs.contains "Editor"
                | none => false
            if !allowed then (.forbidden, st)
            else
              let newValue := match pb.value with
                | some v => some v
                | none => t.value
              let newStatus := pb.status.getD t.status
              let newT : Translation :=
                { t with locale := pb.locale, value := newValue,
                         status := newStatus, version := t.version + 1 }
              let st1 :=
                { st with translations :=
                    st.translations.map (fun t2 => if t2.id == id then newT else t2) }
              if eventInsertFails then (.serverError, st1)
              else
                let beforeJson : Jsonish :=
                  .obj [("id", .str t.id), ("keyId", .str t.keyId),
                        ("locale", .str t.locale), ("value", jsonOfOptStr t.value),
                        ("status", .str t.status), ("version", .num t.version)]
                let afterJson : Jsonish :=
                  .obj [("id", .str t.id), ("keyId", .str t.keyId),
                        ("locale", .str pb.locale), ("value", jsonOfOptStr newValue),
                        ("status", .str newStatus), ("version", .num (t.version + 1))]
                let ev : Event :=
                  { id := eventId, actor := u.sub, action := "update",
                    entityType := "translation", entityId := id,
                    before := some beforeJson, after := some afterJson }
                (.ok, { st1 with events := st1.events ++ [ev] })

/-! ## Import payload and diff comparison (src/routes/api/import.ts) -/

/-- Incoming translation of an import payload after zod parsing
(importPayloadSchema): `value` is a required string, `version` a positive
integer. -/
structure ImportTranslationData where
  locale : String
  value : String
  status : String
  version : Int
deriving DecidableEq, Repr

/-- Incoming key of an import payload after zod parsing; `namespaceId` is
optional and stays absent (undefined) when not supplied. -/
structure ImportKeyData where
  id : String
  keyName : String
  namespaceId : Option String
  tags : List String
  status : String
  translations : List ImportTranslationData
deriving DecidableEq, Repr

/-- Comparison of the nullable database `namespaceId` column against the
optional incoming field, as performed by
`existingKey.namespaceId !== keyData.namespaceId`: in JavaScript the
database null and the payload's undefined are different values, so two
absent namespaces still compare as changed. -/
def jsNsChanged (dbNs : Option String) (incomingNs : Option String) : Bool :=
  match dbNs, incomingNs with
  | some a, some b => a != b
  | some _, none => true
  | none, some _ => true
  | none, none => true

/-- Model of the `keyChanged` comparison of import.ts (lines 122-126 and
296-300).  The tags comparison in the source is
`JSON.stringify(existingKey.tags) !== JSON.stringify(keyData.tags)`;
JSON.stringify is injective on string arrays, so it is order- and
duplicate-sensitive list equality. -/
def jsKeyChanged (ek : L10nKey) (kd : ImportKeyData) : Bool :=
  ek.keyName != kd.keyName
    || jsNsChanged ek.namespaceId kd.namespaceId
    || ek.tags != kd.tags
    || ek.status != kd.status

/-- Model of the `translationChanged` comparison of import.ts (lines 173-176
and 375-378): the nullable database `value` column never equals the
incoming string when it is null. -/
def jsTranslationChanged (et : Translation) (td : ImportTranslationData) : Bool :=
  (match et.value with
   | some v => v != td.value
   | none => true)
    || et.status != td.status
    || et.version != td.version

/-! ## Diff report (generateDiffReport, import.ts lines 66-213) -/

/-- Summary counters of a diff report. -/
structure DiffSummary where
  keysToCreate : Nat
  keysToUpdate : Nat
  translationsToCreate : Nat
  translationsToUpdate : Nat
deriving DecidableEq, Repr

/-- Change kinds of a diff report. -/
inductive ChangeType where
  | create_key
  | update_key
  | create_translation
  | update_translation
deriving DecidableEq, Repr

/-- One entry of the `changes` array of a diff report. -/
structure DiffChange where
  type : ChangeType
  keyId : String
  keyName : String
  locale : Option String
  before : Option Jsonish
  after : Jsonish

/-- Diff report shape returned by the dry-run path. -/
structure DiffReport where
  summary : DiffSummary
  changes : List DiffChange

/-- Snapshot of key fields as pushed into diff entries; an absent incoming
`namespaceId` (undefined) is encoded like null, which no claim inspects. -/
def keyFieldsJson (keyName : String) (ns : Option String) (tags : List String)
    (status : String) : Jsonish :=
  .obj [("keyName", .str keyName), ("namespaceId", jsonOfOptStr ns),
        ("tags", .arr (tags.map .str)), ("status", .str status)]

/-- Snapshot of translation fields as pushed into diff entries. -/
def translationFieldsJson (locale : String) (value : Jsonish) (status : String)
    (version : Int) : Jsonish :=
  .obj [("locale", .str locale), ("value", value), ("status", .str status),
        ("version", .num version)]

/-- Zero summary. -/
def zeroSummary : DiffSummary :=
  { keysToCreate := 0, keysToUpdate := 0, translationsToCreate := 0,
    translationsToUpdate := 0 }

/-- Pointwise sum of summaries (the loop's counter increments). -/
def addSummary (a b : DiffSummary) : DiffSummary :=
  { keysToCreate := a.keysToCreate + b.keysToCreate,
    keysToUpdate := a.keysToUpdate + b.keysToUpdate,
    translationsToCreate := a.translationsToCreate + b.translationsToCreate,
    translationsToUpdate := a.translationsToUpdate + b.translationsToUpdate }

/-- Diff contribution of a single incoming translation under an existing key
(import.ts lines 154-200). -/
def diffTranslationStep (existingTs : List Translation) (keyId keyName : String)
    (td : ImportTranslationData) : DiffSummary × List DiffChange :=
  match lastFind? (fun t => t.locale == td.locale) existingTs with
  | none =>
    ({ zeroSummary with translationsToCreate := 1 },
     [{ type := .create_translation, keyId := keyId, keyName := keyName,
        locale := some td.locale, before := none,
        after := translationFieldsJson td.locale (.str td.value) td.status td.version }])
  | some et =>
    if jsTranslationChanged et td then
      ({ zeroSummary with translationsToUpdate := 1 },
       [{ type := .update_translation, keyId := keyId, keyName := keyName,
          locale := some td.locale,
          before := some (translationFieldsJson et.locale (jsonOfOptStr et.value) et.status et.version),
          after := translationFieldsJson td.locale (.str td.value) td.status td.version }])
    else (zeroSummary, [])

/-- Diff contribution of a single incoming key (one iteration of the
generateDiffReport loop, import.ts lines 86-202).  `serviceKeys` is the
initial read of the service's keys; each key's existing translations come
from the loaded relation. -/
def diffKeyStep (serviceKeys : List L10nKey) (allTranslations : List Translation)
    (kd : ImportKeyData) : DiffSummary × List DiffChange :=
  match lastFind? (fun k => k.id == kd.id) serviceKeys with
  | none =>
    let keyChange : DiffChange :=
      { type := .create_key, keyId := kd.id, keyName := kd.keyName,
        locale := none, before := none,
        after := keyFieldsJson kd.keyName kd.namespaceId kd.tags kd.status }
    let transChanges : List DiffChange :=
      kd.translations.map (fun td =>
        { type := .create_translation, keyId := kd.id, keyName := kd.keyName,
          locale := some td.locale, before := none,
          after := translationFieldsJson td.locale (.str td.value) td.status td.version })
    ({ zeroSummary with keysToCreate := 1,
                        translationsToCreate := kd.translations.length },
     keyChange :: transChanges)
  | some ek =>
    let keyPart : DiffSummary × List DiffChange :=
      if jsKeyChanged ek kd then
        ({ zeroSummary with keysToUpdate := 1 },
         [{ type := .update_key, keyId := kd.id, keyName := kd.keyName,
            locale := none,
            before := some (keyFieldsJson ek.keyName ek.namespaceId ek.tags ek.status),
            after := keyFieldsJson kd.keyName kd.namespaceId kd.tags kd.status }])
      else (zeroSummary, [])
    let existingTs := allTranslations.filter (fun t => t.keyId == ek.id)
    kd.translations.foldl
      (fun acc td =>
        let part := diffTranslationStep existingTs kd.id kd.keyName td
        (addSummary acc.1 part.1, acc.2 ++ part.2))
      keyPart

/-- Model of `generateDiffReport`: the loop over incoming keys is a fold
whose per key contributions are `diffKeyStep`. -/
def generateDiffReport (serviceId : String) (st : DbState)
    (importKeys : List ImportKeyData) : DiffReport :=
  let serviceKeys := st.keys.filter (fun k => k.serviceId == some serviceId)
  let parts := importKeys.map (diffKeyStep serviceKeys st.translations)
  { summary := parts.foldl (fun a p => addSummary a p.1) zeroSummary,
    changes := parts.foldl (fun a p => a ++ p.2) [] }

/-! ## Import execution (executeImport, import.ts lines 218-418) -/

/-- Deterministic stand-in for `crypto.randomUUID()`: ids are drawn from a
counter threaded through the import. -/
def genId (n : Nat) : String := "uuid-" ++ toString n

/-- One incoming translation processed inside the import transaction
(import.ts lines 266-293 for inserts under a fresh key, lines 342-414 under
an existing key; an insert and its audit event, or an update and its audit
event when the comparison reports a change).  `existingTs` is the relation
loaded with the key before the loop (empty for a freshly created key). -/
def applyTranslationImport (userId keyId : String) (existingTs : List Translation)
    (acc : DbState × Nat) (td : ImportTranslationData) : DbState × Nat :=
  let st := acc.1
  let n := acc.2
  match lastFind? (fun t => t.locale == td.locale) existingTs with
  | none =>
    let tid := genId n
    let newT : Translation :=
      { id := tid, keyId := keyId, locale := td.locale, value := some td.value,
        status := td.status, version := td.version, checksum := none }
    let ev : Event :=
      { id := genId (n + 1), actor := userId, action := "create",
        entityType := "translation", entityId := tid, before := none,
        after := some (.obj [("keyId", .str keyId), ("locale", .str td.locale),
                             ("value", .str td.value), ("status", .str td.status),
                             ("version", .num td.version)]) }
    ({ st with translations := st.translations ++ [newT],
               events := st.events ++ [ev] }, n + 2)
  | some et =>
    if jsTranslationChanged et td then
      let ev : Event :=
        { id := genId n, actor := userId, action := "update",
          entityType := "translation", entityId := et.id,
          before := some (translationFieldsJson et.locale (jsonOfOptStr et.value) et.status et.version),
          after := translationFieldsJson td.locale (.str td.value) td.status td.version |> some }
      ({ st with
          translations := st.translations.map (fun t =>
            if t.id == et.id then
              { t with value := some td.value, status := td.status,
                       version := td.version }
            else t),
          events := st.events ++ [ev] }, n + 1)
    else acc

/-- One incoming key processed inside the import transaction (one iteration
of the executeImport loop).  The existing-key map and each key's
translations are read once before the loop, from the initial state.  On a
key update, drizzle skips columns whose value is undefined, so an absent
incoming `namespaceId` leaves the stored column unchanged. -/
def applyKeyImport (serviceId userId : String) (serviceKeys : List L10nKey)
    (origTranslations : List Translation) (acc : DbState × Nat)
    (kd : ImportKeyData) : DbState × Nat :=
  let st := acc.1
  let n := acc.2
  match lastFind? (fun k => k.id == kd.id) serviceKeys with
  | none =>
    let newKey : L10nKey :=
      { id := kd.id, serviceId := some serviceId, namespaceId := kd.namespaceId,
        keyName := kd.keyName, tags := kd.tags, status := kd.status }
    let ev : Event :=
      { id := genId n, actor := userId, action := "create",
        entityType := "l10n_key", entityId := kd.id, before := none,
        after := some (.obj [("keyName", .str kd.keyName),
                             ("serviceId", .str serviceId),
                             ("namespaceId", jsonOfOptStr kd.namespaceId),
                             ("tags", .arr (kd.tags.map .str)),
                             ("status", .str kd.status)]) }
    let st1 :=
      { st with keys := st.keys ++ [newKey], events := st.events ++ [ev] }
    kd.translations.foldl (applyTranslationImport userId kd.id []) (st1, n + 1)
  | some ek =>
    let acc1 : DbState × Nat :=
      if jsKeyChanged ek kd then
        let ev : Event :=
          { id := genId n, actor := userId, action := "update",
            entityType := "l10n_key", entityId := kd.id,
            before := some (keyFieldsJson ek.keyName ek.namespaceId ek.tags ek.status),
            after := keyFieldsJson kd.keyName kd.namespaceId kd.tags kd.status |> some }
        ({ st with
            keys := st.keys.map (fun k =>
              if k.id == kd.id then
                { k with keyName := kd.keyName,
                         namespaceId := match kd.namespaceId with
                           | some s => some s
                           | none => k.namespaceId,
                         tags := kd.tags, status := kd.status }
              else k),
            events := st.events ++ [ev] }, n + 1)
      else (st, n)
    let existingTs := origTranslations.filter (fun t => t.keyId == ek.id)
    kd.translations.foldl (applyTranslationImport userId kd.id existingTs) acc1

/-- Model of `executeImport`: the transactional loop over incoming keys.
The whole fold is one atomic transaction; the model computes its committed
result. -/
def executeImport (serviceId : String) (importKeys : List ImportKeyData)
    (userId : String) (st : DbState) (startId : Nat) : DbState × Nat :=
  let serviceKeys := st.keys.filter (fun k => k.serviceId == some serviceId)
  importKeys.foldl (applyKeyImport serviceId userId serviceKeys st.translations)
    (st, startId)

/-- Result of the POST /api/import handler model. -/
structure ImportPostResult where
  outcome : HttpOutcome
  report : Option DiffReport
  state : DbState
  counter : Nat

/-- Model of the POST /api/import handler (import.ts lines 420-535) after
body parsing: authentication, service resolution by code, the write access
check, then either the dry-run diff (no writes) or the transactional import
followed by the top-level import event. -/
def importPost (user : Option IdentityUser) (dryRun : Bool) (serviceCode : String)
    (importKeys : List ImportKeyData) (st : DbState) (counter : Nat) :
    ImportPostResult :=
  match user with
  | none => { outcome := .unauthorized, report := none, state := st, counter := counter }
  | some u =>
    match st.services.find? (fun s => s.code == serviceCode) with
    | none => { outcome := .notFound, report := none, state := st, counter := counter }
    | some svc =>
      if !validateServiceAccess (some u) svc.id .write st then
        { outcome := .forbidden, report := none, state := st, counter := counter }
      else if dryRun then
        { outcome := .ok, report := some (generateDiffReport svc.id st importKeys),
          state := st, counter := counter }
      else
        let r := executeImport svc.id importKeys u.sub st counter
        let totalTranslations : Nat :=
          importKeys.foldl (fun s kd => s + kd.translations.length) 0
        let ev : Event :=
          { id := genId r.2, actor := u.sub, action := "import",
            entityType := "service", entityId := svc.id, before := none,
            after := some (.obj [("service", .str serviceCode),
                                 ("keysCount", .num (importKeys.length : Int)),
                                 ("translationsCount", .num (totalTranslations : Int))]) }
        { outcome := .created, report := none,
          state := { r.1 with events := r.1.events ++ [ev] }, counter := r.2 + 1 }

/-! ## Export (generateExportData, export.ts lines 78-229) -/

/-- Export of the nullable `namespaceId` column: `key.namespaceId ||
undefined` maps null and the empty string to an absent field. -/
def exportNamespaceId (ns : Option String) : Option String :=
  match ns with
  | some s => if s == "" then none else some s
  | none => none

/-- Export of one joined translation row: `trans.value || ""` maps a null
value to the empty string. -/
def exportEntryOfTranslation (t : Translation) : ImportTranslationData :=
  { locale := t.locale, value := t.value.getD "", status := t.status,
    version := t.version }

/-- Rows of the key/translation inner join used with the default
`includeEmpty = false`, no status filter and no locale filter; the SQL
result order is unspecified and is linearized key-major here (the rows are
regrouped and sorted afterwards). -/
def exportRows (serviceId : String) (st : DbState) : List (L10nKey × Translation) :=
  (st.keys.filter (fun k => k.serviceId == some serviceId)).flatMap
    (fun k => (st.translations.filter (fun t => t.keyId == k.id)).map (fun t => (k, t)))

/-- Grouping of join rows by key id, modelling the insertion-ordered
JavaScript `Map` of export.ts lines 168-209: the first row of a key creates
its entry, later rows of the same key append to its translation list. -/
def groupExportRows (rows : List (L10nKey × Translation)) : List ImportKeyData :=
  rows.foldl
    (fun acc kt =>
      if acc.any (fun e => e.id == kt.1.id) then
        acc.map (fun e =>
          if e.id == kt.1.id then
            { e with translations := e.translations ++ [exportEntryOfTranslation kt.2] }
          else e)
      else
        acc ++ [{ id := kt.1.id, keyName := kt.1.keyName,
                  namespaceId := exportNamespaceId kt.1.namespaceId,
                  tags := kt.1.tags, status := kt.1.status,
                  translations := [exportEntryOfTranslation kt.2] }])
    []

/-- Model of `generateExportData` with the default filter criteria: group the
inner-join rows, then stable-sort keys by keyName and each key's
translations by locale (`localeCompare` modelled as code-point order; no
claim depends on the collation order). -/
def generateExportData (serviceId : String) (st : DbState) : List ImportKeyData :=
  let grouped := groupExportRows (exportRows serviceId st)
  let sorted := List.insertionSort (fun a b => a.keyName ≤ b.keyName) grouped
  sorted.map (fun e =>
    { e with translations :=
        List.insertionSort (fun a b => a.locale ≤ b.locale) e.translations })

/-! ## Reparse of an export payload (importPayloadSchema, shared module) -/

/-- Zod validation of one incoming translation: locale and status must be in
the closed vocabularies and the version a positive integer. -/
def zodParseTranslationOk (td : ImportTranslationData) : Bool :=
  supportedLocales.contains td.locale
    && translationStatusEnum.contains td.status
    && td.version ≥ 1

/-- Zod validation of one incoming key: non-empty id and keyName, status in
the vocabulary, and all translations valid. -/
def zodParseKeyOk (kd : ImportKeyData) : Bool :=
  !(kd.id == "")
    && !(kd.keyName == "")
    && translationStatusEnum.contains kd.status
    && kd.translations.all zodParseTranslationOk

/-- Reparse of a serialized export payload through `importPayloadSchema`:
validation either rejects the payload or returns it unchanged (all optional
fields are already present or absent exactly as serialized). -/
def parseImportKeys (importKeys : List ImportKeyData) : Option (List ImportKeyData) :=
  if importKeys.all zodParseKeyOk then some importKeys else none

/-! ## Regular-expression engine (src/lib/audit/pii-redaction.ts patterns)

The seven PII_PATTERNS are non-unicode JavaScript regexes built from
literals, character classes with greedy counted repetition, optional
groups, alternations and word-boundary assertions.  The engine below
reproduces JavaScript backtracking semantics: `matchList` enumerates every
way a pattern can consume a prefix of the input, in backtracking priority
order (greedy repetitions longest-first, alternatives left to right), so
its head is the match the JavaScript engine commits to.  `\s`, `\w` and
`\b` are modelled over their ASCII meaning, which covers every string
handled in this development. -/

/-- Regex building blocks used by the seven patterns. -/
inductive RItem where
  | lit (c : Char)
  | cls (p : Char → Bool) (lo : Nat) (hi : Option Nat)
  | wb
  | opt (items : List RItem)
  | alt (choices : List (List RItem))

/-- Word characters of the `\b` assertion: `[A-Za-z0-9_]`. -/
def isWordChar (c : Char) : Bool := c.isAlphanum || c == '_'

/-- Word-ness of the character on one side of a position (none at the string
edges). -/
def optIsWord : Option Char → Bool
  | some c => isWordChar c
  | none => false

/-- Word-boundary test between the previous character and the next one. -/
def boundaryOk (prev next : Option Char) : Bool :=
  optIsWord prev != optIsWord next

/-- Length of the maximal prefix of `s` whose characters satisfy `p`. -/
def classRun (p : Char → Bool) : List Char → Nat
  | [] => 0
  | c :: rest => if p c then classRun p rest + 1 else 0

/-- Greedy repetition counts, longest first: `[maxN, maxN-1, ..., lo]`. -/
def greedyCounts (lo maxN : Nat) : List Nat :=
  (List.range' lo (maxN + 1 - lo)).reverse

mutual

/-- All ways one regex item can consume a prefix of `s` (given the previous
character for `\b`), in JavaScript backtracking priority order.  Each
result is the previous-character state and remaining suffix. -/
def matchOne (item : RItem) (prev : Option Char) (s : List Char) :
    List (Option Char × List Char) :=
  match item with
  | .lit c =>
    match s with
    | c2 :: rest => if c2 == c then [(some c2, rest)] else []
    | [] => []
  | .wb => if boundaryOk prev s.head? then [(prev, s)] else []
  | .cls p lo hi =>
    let run := classRun p s
    let maxN := match hi with
      | some h => min h run
      | none => run
    (greedyCounts lo maxN).map (fun n =>
      (if n == 0 then prev else (s.take n).getLast?, s.drop n))
  | .opt g => matchList g prev s ++ [(prev, s)]
  | .alt choices => matchAlts choices prev s

/-- All ways a sequence of regex items can consume a prefix of `s`, in
priority order. -/
def matchList (items : List RItem) (prev : Option Char) (s : List Char) :
    List (Option Char × List Char) :=
  match items with
  | [] => [(prev, s)]
  | it :: rest =>
    (matchOne it prev s).flatMap (fun pr => matchList rest pr.1 pr.2)

/-- Alternation: alternatives tried left to right. -/
def matchAlts (choices : List (List RItem)) (prev : Option Char) (s : List Char) :
    List (Option Char × List Char) :=
  match choices with
  | [] => []
  | c :: cs => matchList c prev s ++ matchAlts cs prev s

end

/-- Suffix left after the match the JavaScript engine commits to at this
position, if any. -/
def firstMatchEnd (pat : List RItem) (prev : Option Char) (s : List Char) :
    Option (List Char) :=
  (matchList pat prev s).head?.map (fun pr => pr.2)

/-- Existence of a match at some position: the semantics of
`pattern.test(value)` (each test call observes `lastIndex = 0`, because a
failing global `test` resets it and a successful one is always followed by
a global `replace`, which also resets it). -/
def hasMatchAux (pat : List RItem) (prev : Option Char) (s : List Char) : Bool :=
  match firstMatchEnd pat prev s with
  | some _ => true
  | none =>
    match s with
    | [] => false
    | c :: rest => hasMatchAux pat (some c) rest

/-- Global replacement: scan left to right, replace each committed match
with the marker and resume after it.  An empty match cannot arise for the
seven patterns (each contains a mandatory consuming item) and is treated as
no match at that position.  The structural `fuel` argument bounds the
number of scan steps; every step consumes at least one character, so the
caller's `s.length` is always sufficient and the exhaustion branch is
unreachable. -/
def replaceAllFuel (fuel : Nat) (pat : List RItem) (marker : List Char)
    (prev : Option Char) (s : List Char) : List Char :=
  match fuel with
  | 0 => s
  | fuel + 1 =>
    match s with
    | [] => []
    | c :: rest =>
      match firstMatchEnd pat prev (c :: rest) with
      | some suffix =>
        if (c :: rest).length - suffix.length == 0 then
          c :: replaceAllFuel fuel pat marker (some c) rest
        else
          marker ++ replaceAllFuel fuel pat marker
            (((c :: rest).take ((c :: rest).length - suffix.length)).getLast?)
            ((c :: rest).drop ((c :: rest).length - suffix.length))
      | none => c :: replaceAllFuel fuel pat marker (some c) rest

/-- String form of `pattern.test`. -/
def hasMatchStr (pat : List RItem) (s : String) : Bool :=
  hasMatchAux pat none s.data

/-- String form of `value.replace(pattern, marker)` for a global pattern and
a fixed replacement string. -/
def replaceAllStr (pat : List RItem) (marker : String) (s : String) : String :=
  String.mk (replaceAllFuel s.data.length pat marker.data none s.data)

/-! ## The seven PII_PATTERNS -/

/-- Digit class `[0-9]`. -/
def digitChar (c : Char) : Bool := c.isDigit

/-- ASCII meaning of the `\s` class. -/
def isSpaceChar (c : Char) : Bool :=
  c == ' ' || c == '\t' || c == '\n' || c == '\r' || c == '\x0b' || c == '\x0c'

/-- Separator class `[-.\s]` of the phone pattern. -/
def phoneSepChar (c : Char) : Bool := c == '-' || c == '.' || isSpaceChar c

/-- Email local-part class `[A-Za-z0-9._%+-]`. -/
def emailLocalChar (c : Char) : Bool :=
  c.isAlphanum || c == '.' || c == '_' || c == '%' || c == '+' || c == '-'

/-- Email domain class `[A-Za-z0-9.-]`. -/
def emailDomainChar (c : Char) : Bool := c.isAlphanum || c == '.' || c == '-'

/-- Email top-level-domain class: the source writes `[A-Z|a-z]`, which
contains the literal pipe character. -/
def emailTldChar (c : Char) : Bool := c.isAlpha || c == '|'

/-- Pattern `email`. -/
def emailPattern : List RItem :=
  [.wb, .cls emailLocalChar 1 none, .lit '@', .cls emailDomainChar 1 none,
   .lit '.', .cls emailTldChar 2 none, .wb]

/-- Pattern `phone`: an optional `+1` prefix group, optional parenthesis and
separators around a 3-3-4 digit core; note the absence of `\b` anchors. -/
def phonePattern : List RItem :=
  [.opt [.cls (fun c => c == '+') 0 (some 1), .lit '1', .cls phoneSepChar 0 (some 1)],
   .cls (fun c => c == '(') 0 (some 1),
   .cls digitChar 3 (some 3),
   .cls (fun c => c == ')') 0 (some 1),
   .cls phoneSepChar 0 (some 1),
   .cls digitChar 3 (some 3),
   .cls phoneSepChar 0 (some 1),
   .cls digitChar 4 (some 4)]

/-- Pattern `ssn`: `\b\d{3}-?\d{2}-?\d{4}\b`. -/
def ssnPattern : List RItem :=
  [.wb, .cls digitChar 3 (some 3), .cls (fun c => c == '-') 0 (some 1),
   .cls digitChar 2 (some 2), .cls (fun c => c == '-') 0 (some 1),
   .cls digitChar 4 (some 4), .wb]

/-- Separator class `[-\s]` of the credit-card pattern. -/
def cardSepChar (c : Char) : Bool := c == '-' || isSpaceChar c

/-- Pattern `creditCard`: `\b(?:\d{4}[-\s]?){3}\d{4}\b` with the counted
group unrolled. -/
def creditCardPattern : List RItem :=
  [.wb, .cls digitChar 4 (some 4), .cls cardSepChar 0 (some 1),
   .cls digitChar 4 (some 4), .cls cardSepChar 0 (some 1),
   .cls digitChar 4 (some 4), .cls cardSepChar 0 (some 1),
   .cls digitChar 4 (some 4), .wb]

/-- Octet alternation of the IPv4 pattern:
`(25[0-5]|2[0-4][0-9]|[01]?[0-9][0-9]?)`. -/
def ipv4Octet : RItem :=
  .alt [[.lit '2', .lit '5', .cls (fun c => '0' ≤ c && c ≤ '5') 1 (some 1)],
        [.lit '2', .cls (fun c => '0' ≤ c && c ≤ '4') 1 (some 1),
         .cls digitChar 1 (some 1)],
        [.cls (fun c => c == '0' || c == '1') 0 (some 1),
         .cls digitChar 1 (some 1), .cls digitChar 0 (some 1)]]

/-- Pattern `ipv4`. -/
def ipv4Pattern : List RItem :=
  [.wb, ipv4Octet, .lit '.', ipv4Octet, .lit '.', ipv4Octet, .lit '.',
   ipv4Octet, .wb]

/-- Pattern `urlWithParams`: `https?:\/\/[^\s]+[?&]([^=]+=[^&\s]+)`; no `\b`
anchors. -/
def urlWithParamsPattern : List RItem :=
  [.lit 'h', .lit 't', .lit 't', .lit 'p', .cls (fun c => c == 's') 0 (some 1),
   .lit ':', .lit '/', .lit '/',
   .cls (fun c => !isSpaceChar c) 1 none,
   .cls (fun c => c == '?' || c == '&') 1 (some 1),
   .cls (fun c => !(c == '=')) 1 none,
   .lit '=',
   .cls (fun c => !(c == '&') && !isSpaceChar c) 1 none]

/-- Pattern `apiKey`: `\b[A-Za-z0-9]{20,}\b`. -/
def apiKeyPattern : List RItem :=
  [.wb, .cls (fun c => c.isAlphanum) 20 none, .wb]

/-- The PII_PATTERNS object: name/pattern pairs in JavaScript key order (the
order `Object.entries` iterates). -/
def piiPatterns : List (String × List RItem) :=
  [("email", emailPattern), ("phone", phonePattern), ("ssn", ssnPattern),
   ("creditCard", creditCardPattern), ("ipv4", ipv4Pattern),
   ("urlWithParams", urlWithParamsPattern), ("apiKey", apiKeyPattern)]

/-! ## Redaction engine (pii-redaction.ts) -/

/-- Sensitive field-name vocabulary (SENSITIVE_FIELD_NAMES). -/
def sensitiveFieldNames : List String :=
  ["password", "secret", "token", "key", "api_key", "apikey", "auth",
   "authorization", "credential", "private", "confidential"]

/-- Redaction configuration (RedactionConfig). -/
structure RedactionConfig where
  maxValueLength : Nat
  enablePatternDetection : Bool
  enableFieldNameDetection : Bool
  customPatterns : List (List RItem)
  whitelistFields : List String

/-- Default configuration (DEFAULT_REDACTION_CONFIG). -/
def defaultRedactionConfig : RedactionConfig :=
  { maxValueLength := 100, enablePatternDetection := true,
    enableFieldNameDetection := true, customPatterns := [],
    whitelistFields := ["id", "status", "version", "locale", "created_at",
                        "updated_at"] }

/-- Prefix test on character lists. -/
def startsWithChars : List Char → List Char → Bool
  | _, [] => true
  | [], _ :: _ => false
  | c :: cs, d :: ds => c == d && startsWithChars cs ds

/-- Substring test on character lists (JavaScript `String.includes`). -/
def containsChars (hay needle : List Char) : Bool :=
  match hay with
  | [] => startsWithChars [] needle
  | c :: t => startsWithChars (c :: t) needle || containsChars t needle

/-- Substring test on strings. -/
def strContains (hay needle : String) : Bool :=
  containsChars hay.data needle.data

/-- Marker produced by the length rule:
`[REDACTED: N characters - exceeds M chars]` (at that point the joined
reason list holds exactly the length reason). -/
def lengthMarker (valueLen maxLen : Nat) : String :=
  "[REDACTED: " ++ toString valueLen ++ " characters - exceeds "
    ++ toString maxLen ++ " chars]"

/-- Marker of a pattern, from its name:
`[` + upper-cased name + `_REDACTED]`. -/
def patternMarker (name : String) : String :=
  "[" ++ String.mk (name.data.map Char.toUpper) ++ "_REDACTED]"

/-- Model of `redactStringValue` (pii-redaction.ts lines 53-88): the length
rule short-circuits everything; otherwise each pattern is tested against
the original value and, when it matches, globally replaced in the working
copy; when no rule fired the original value is returned. -/
def redactStringValue (value : String) (cfg : RedactionConfig) : String :=
  if cfg.maxValueLength > 0 && value.length > cfg.maxValueLength then
    lengthMarker value.length cfg.maxValueLength
  else if cfg.enablePatternDetection then
    let acc1 := piiPatterns.foldl
      (fun (acc : String × Bool) pm =>
        if hasMatchStr pm.2 value then
          (replaceAllStr pm.2 (patternMarker pm.1) acc.1, true)
        else acc)
      (value, false)
    let acc2 := cfg.customPatterns.foldl
      (fun (acc : String × Bool) p =>
        if hasMatchStr p value then
          (replaceAllStr p "[CUSTOM_PII_REDACTED]" acc.1, true)
        else acc)
      acc1
    if acc2.2 then acc2.1 else value
  else value

/-- Model of `isFieldNameSensitive` (pii-redaction.ts lines 93-106). -/
def isFieldNameSensitive (fieldName : String) (cfg : RedactionConfig) : Bool :=
  if !cfg.enableFieldNameDetection then false
  else if cfg.whitelistFields.contains (String.mk (fieldName.data.map Char.toLower)) then false
  else sensitiveFieldNames.any (fun s => strContains (String.mk (fieldName.data.map Char.toLower)) s)

mutual

/-- Model of `redactObjectFields` (pii-redaction.ts lines 111-153): arrays
element-wise, objects key-wise with the field-name rule taking precedence,
strings through `redactStringValue`, everything else unchanged.  The
`parentKey` argument of the source only builds a derived path that nothing
reads and is omitted. -/
def redactObjectFields (v : Jsonish) (cfg : RedactionConfig) : Jsonish :=
  match v with
  | .null => .null
  | .arr items => .arr (redactJsonList items cfg)
  | .obj fields => .obj (redactJsonFields fields cfg)
  | .str s => .str (redactStringValue s cfg)
  | .num n => .num n
  | .boolean b => .boolean b

/-- Element-wise redaction of an array. -/
def redactJsonList (items : List Jsonish) (cfg : RedactionConfig) : List Jsonish :=
  match items with
  | [] => []
  | v :: rest => redactObjectFields v cfg :: redactJsonList rest cfg

/-- Key-wise redaction of an object's fields. -/
def redactJsonFields (fields : List (String × Jsonish)) (cfg : RedactionConfig) :
    List (String × Jsonish) :=
  match fields with
  | [] => []
  | (k, v) :: rest =>
    (if isFieldNameSensitive k cfg then
       (k, Jsonish.str "[REDACTED: sensitive field name]")
     else
       match v with
       | .str s => (k, Jsonish.str (redactStringValue s cfg))
       | v2 => (k, redactObjectFields v2 cfg)) :: redactJsonFields rest cfg

end

/-- JavaScript truthiness of a jsonb value, for the
`if (redactedEvent.before)` guards. -/
def jsTruthy : Jsonish → Bool
  | .str s => !(s == "")
  | .num n => !(n == 0)
  | .boolean b => b
  | .null => false
  | .arr _ => true
  | .obj _ => true

/-- Model of `redactSensitiveData` (pii-redaction.ts lines 158-185) on an
event row whose `before` / `after` are structured jsonb values (every
writer in this repository stores objects, so the `JSON.parse` branch for
string-encoded payloads is not exercised): a falsy payload is skipped, a
truthy one is redacted; the stored row itself is not mutated. -/
def redactSensitiveData (ev : Event) (cfg : RedactionConfig) : Event :=
  let redactPart := fun (part : Option Jsonish) =>
    match part with
    | none => none
    | some b => if jsTruthy b then some (redactObjectFields b cfg) else some b
  { ev with before := redactPart ev.before, after := redactPart ev.after }

/-! ## Derived combinators named by the spec -/

/-- Round trip named by property P7: serialize the export payload and parse
it back through importPayloadSchema. -/
def exportThenReparse (serviceId : String) (st : DbState) : Option (List ImportKeyData) :=
  parseImportKeys (generateExportData serviceId st)

/-- State/counter transition of one dry-run POST call, for iterating the
dry-run endpoint. -/
def dryRunStep (user : Option IdentityUser) (serviceCode : String)
    (importKeys : List ImportKeyData) (p : DbState × Nat) : DbState × Nat :=
  ((importPost user true serviceCode importKeys p.1 p.2).state,
   (importPost user true serviceCode importKeys p.1 p.2).counter)

/-- Projection of a string field of an event's `before` object, used to
compare redaction outputs. -/
def eventBeforeStringField (ev : Event) (field : String) : Option String :=
  match ev.before with
  | some (.obj fields) =>
    match fields.find? (fun f => f.1 == field) with
    | some (_, .str s) => some s
    | _ => none
  | _ => none

/-! ## Concrete rows and payloads used by witnesses and counterexamples -/

/-- Identity holding the Admin role. -/
def uAdmin : IdentityUser := { sub := "admin-1", roles := some ["Admin"] }

/-- Identity holding the Editor role. -/
def uEditor : IdentityUser := { sub := "editor-1", roles := some ["Editor"] }

/-- Identity holding the Viewer role. -/
def uViewer : IdentityUser := { sub := "viewer-1", roles := some ["Viewer"] }

/-- Identity with an empty role set. -/
def uNoRoles : IdentityUser := { sub := "user-1", roles := some [] }

/-- Empty database state. -/
def stEmpty : DbState := { services := [], keys := [], translations := [], events := [] }

/-- Legacy key with no service association. -/
def kLegacy : L10nKey :=
  { id := "k-legacy", serviceId := none, namespaceId := none,
    keyName := "legacy.key", tags := [], status := "active" }

/-- Translation under the legacy key. -/
def tLegacy : Translation :=
  { id := "t9", keyId := "k-legacy", locale := "en", value := some "Old",
    status := "draft", version := 3, checksum := none }

/-- State holding only the legacy key and its translation. -/
def stLegacy : DbState :=
  { services := [], keys := [kLegacy], translations := [tLegacy], events := [] }

/-- Update body setting a new value. -/
def bodyNewValue : UpdateTranslationBody :=
  { locale := "en", value := some "New", status := none }

/-- Service s1. -/
def svc1 : Service :=
  { id := "s1", code := "svc", name := "Service One", owners := ["owner-1"] }

/-- Key of service s1 with a namespace. -/
def k1 : L10nKey :=
  { id := "k1", serviceId := some "s1", namespaceId := some "ns1",
    keyName := "greeting", tags := ["ui"], status := "active" }

/-- English translation of k1 at version 5. -/
def t1 : Translation :=
  { id := "t1", keyId := "k1", locale := "en", value := some "Hello",
    status := "active", version := 5, checksum := none }

/-- State holding service s1 with k1/t1. -/
def st1 : DbState :=
  { services := [svc1], keys := [k1], translations := [t1], events := [] }

/-- Incoming key identical to k1 except that its translation carries version
1 and a new value: an import that rewinds t1's version from 5 to 1. -/
def kdDowngrade : ImportKeyData :=
  { id := "k1", keyName := "greeting", namespaceId := some "ns1", tags := ["ui"],
    status := "active",
    translations := [{ locale := "en", value := "Hi", status := "active", version := 1 }] }

/-- Incoming key identical to k1/t1 in every compared field. -/
def kdNoop : ImportKeyData :=
  { id := "k1", keyName := "greeting", namespaceId := some "ns1", tags := ["ui"],
    status := "active",
    translations := [{ locale := "en", value := "Hello", status := "active", version := 5 }] }

/-- Key of service s1 with two tags. -/
def kTags : L10nKey :=
  { id := "k2", serviceId := some "s1", namespaceId := some "ns1",
    keyName := "color", tags := ["ui", "web"], status := "active" }

/-- State holding service s1 with kTags. -/
def stTags : DbState :=
  { services := [svc1], keys := [kTags], translations := [], events := [] }

/-- Incoming key equal to kTags with the same tag set in reversed order. -/
def kdTagsReordered : ImportKeyData :=
  { id := "k2", keyName := "color", namespaceId := some "ns1",
    tags := ["web", "ui"], status := "active", translations := [] }

/-- Key of service s1 with a null namespace. -/
def kNullNs : L10nKey :=
  { id := "k3", serviceId := some "s1", namespaceId := none, keyName := "title",
    tags := [], status := "active" }

/-- Translation under kNullNs. -/
def t3 : Translation :=
  { id := "t3", keyId := "k3", locale := "en", value := some "Title",
    status := "active", version := 1, checksum := none }

/-- State holding service s1 with the null-namespace key. -/
def stNullNs : DbState :=
  { services := [svc1], keys := [kNullNs], translations := [t3], events := [] }

/-- String of 42 characters holding six short email addresses; its pattern
redaction grows to 102 characters, crossing the default length threshold. -/
def emailRepeatValue : String := "a@b.co a@b.co a@b.co a@b.co a@b.co a@b.co "

/-- String holding one boundary-delimited SSN, a second SSN directly
followed by a URL (so its trailing word boundary fails), and the URL. -/
def piiMixedValue : String := "111-22-3333 123-45-6789https://x.com?a=b"

/-- Event whose before payload holds the email-repeat string. -/
def evEmailRepeat : Event :=
  { id := "e1", actor := "actor", action := "update", entityType := "translation",
    entityId := "t1", before := some (.obj [("contact", .str emailRepeatValue)]),
    after := none }

/-- Event whose before payload holds the mixed PII string. -/
def evPiiMixed : Event :=
  { id := "e2", actor := "actor", action := "update", entityType := "translation",
    entityId := "t1", before := some (.obj [("note", .str piiMixedValue)]),
    after := none }

/-- Expected translation row after the PUT update of tLegacy. -/
def tLegacyUpdated : Translation := { tLegacy with value := some "New", version := 4 }

/-- Expected translation row after importing kdDowngrade over st1: version
rewound from 5 to the payload's 1. -/
def t1Downgraded : Translation := { t1 with value := some "Hi", version := 1 }

/-! # Theorems -/

/-- Claim C9: an identity whose role set is empty or undefined has zero
capability — hasRole, hasAnyRole, canEdit, canReview and canView all return
false, and the role-gated access decisions (canAccessService for
non-owners, the role-only fallback for keys with no service) deny both
permissions; `roles: undefined` behaves exactly like `roles: []`. -/
theorem claim_C9_empty_roles_zero_capability (u : IdentityUser)
    (h : u.roles = none ∨ u.roles = some []) :
    (∀ role, hasRole (some u) role = false)
    ∧ (∀ roles, hasAnyRole (some u) roles = false)
    ∧ canEdit (some u) = false
    ∧ canReview (some u) = false
    ∧ canView (some u) = false
    ∧ (∀ serviceId permission st, isServiceOwner (some u) serviceId st = false →
        canAccessService (some u) serviceId permission st = false)
    ∧ (∀ permission st k, k.serviceId = none →
        keyPointCheck (some u) permission st k = false) := by
  have hr : ∀ role, hasRole (some u) role = false := by
    intro role
    rcases h with h | h <;> simp [hasRole, h]
  have ha : ∀ roles, hasAnyRole (some u) roles = false := by
    intro roles
    rcases h with h | h <;> simp [hasAnyRole, h]
  have hrp : ∀ permission, rolePermissionCheck (some u) permission = false := by
    intro permission
    cases permission <;> simp [rolePermissionCheck, canView, canEdit, ha]
  refine ⟨hr, ha, by simp [canEdit, ha], by simp [canReview, ha], by simp [canView, ha],
          ?_, ?_⟩
  · intro serviceId permission st hown
    simp [canAccessService, isAdmin, hr, hown, hrp]
  · intro permission st k hk
    simp [keyPointCheck, isAdmin, hr, hk, hrp]

/-- Witness for C9 at the concrete empty-role identity. -/
theorem claim_C9_witness :
    hasRole (some uNoRoles) "Admin" = false
    ∧ hasAnyRole (some uNoRoles) ["Admin", "Owner", "Editor"] = false
    ∧ canEdit (some uNoRoles) = false
    ∧ canReview (some uNoRoles) = false
    ∧ canView (some uNoRoles) = false
    ∧ canAccessService (some uNoRoles) "s1" .write st1 = false
    ∧ keyPointCheck (some uNoRoles) .read stEmpty kLegacy = false := by
  have h := claim_C9_empty_roles_zero_capability uNoRoles (Or.inr rfl)
  exact ⟨h.1 _, h.2.1 _, h.2.2.1, h.2.2.2.1, h.2.2.2.2.1,
         h.2.2.2.2.2.1 _ _ _ (by decide), h.2.2.2.2.2.2 _ _ _ rfl⟩

/-- Claim C10 (implicit): the access resolvers fail closed — when the
persistence lookup inside the `try` block throws, validateServiceAccess,
validateTranslationAccess and isServiceOwner catch it and return false
instead of propagating; the lookup only runs for authenticated non-admin
callers, for whom the functions therefore deny.  The functions are total
Bool-valued, so an authorization check never throws. -/
theorem claim_C10_resolvers_fail_closed (user : Option IdentityUser)
    (permission : Permission) (e1 e2 e3 : String)
    (hA : isAdmin user = false) :
    validateServiceAccessCore user (.error e1) permission = false
    ∧ validateTranslationAccessCore user (.error e2) permission = false
    ∧ isServiceOwnerCore user (.error e3) = false := by
  cases user with
  | none => exact ⟨rfl, rfl, rfl⟩
  | some u =>
    refine ⟨?_, ?_, rfl⟩ <;>
      simp [validateServiceAccessCore, validateTranslationAccessCore, hA]

/-- Witness for C10 at a concrete non-admin identity and error. -/
theorem claim_C10_witness :
    validateServiceAccessCore (some uEditor) (.error "db down") .write = false
    ∧ validateTranslationAccessCore (some uEditor) (.error "db down") .write = false
    ∧ isServiceOwnerCore (some uEditor) (.error "db down") = false :=
  claim_C10_resolvers_fail_closed (some uEditor) .write "db down" "db down" "db down"
    (by decide)

/-- Counterexample to C8 as stated: a nonexistent resource id is not denied
for every identity — an Admin passes every check before the existence
lookup, and canAccessService never consults existence on its role path, so
a Viewer reads a nonexistent service as allowed. -/
theorem claim_C8_cex :
    validateServiceAccess (some uAdmin) "no-such-service" .read stEmpty = true
    ∧ validateTranslationAccess (some uAdmin) "no-such-translation" .write stEmpty = true
    ∧ canAccessService (some uAdmin) "no-such-service" .write stEmpty = true
    ∧ canAccessService (some uViewer) "no-such-service" .read stEmpty = true := by
  decide

/-- Claim C8 amended: for non-admin identities, validateServiceAccess and
validateTranslationAccess deny when the resource id has no matching record;
admins are allowed unconditionally before the lookup, and canAccessService
answers with the pure role decision for a missing service instead of
denying. -/
theorem claim_C8_missing_resource_access (user : Option IdentityUser)
    (st : DbState) (serviceId translationId : String) (permission : Permission)
    (hA : isAdmin user = false)
    (hs : findService st serviceId = none)
    (ht : translationJoinLookup st translationId = none) :
    validateServiceAccess user serviceId permission st = false
    ∧ validateTranslationAccess user translationId permission st = false
    ∧ canAccessService user serviceId permission st
        = rolePermissionCheck user permission := by
  cases user with
  | none =>
    refine ⟨rfl, rfl, ?_⟩
    cases permission <;> rfl
  | some u =>
    refine ⟨?_, ?_, ?_⟩
    · simp [validateServiceAccess, validateServiceAccessCore, hs, hA]
    · simp [validateTranslationAccess, validateTranslationAccessCore, ht, hA]
    · simp [canAccessService, isServiceOwner, isServiceOwnerCore, hs, hA]

/-- Witness for the amended C8 at a concrete non-admin identity and empty
state. -/
theorem claim_C8_witness :
    validateServiceAccess (some uEditor) "no-such-service" .read stEmpty = false
    ∧ validateTranslationAccess (some uEditor) "no-such-translation" .read stEmpty = false
    ∧ canAccessService (some uEditor) "no-such-service" .read stEmpty
        = rolePermissionCheck (some uEditor) .read :=
  claim_C8_missing_resource_access (some uEditor) stEmpty "no-such-service"
    "no-such-translation" .read (by decide) (by decide) (by decide)

/-- Counterexample to C1 as stated: for an identity with an empty role set
and read permission, the list filter admits a key with no service (the
legacy-data disjunct of the ownership branch), while the single-resource
check's role-only fallback denies it. -/
theorem claim_C1_cex :
    keyFilterAdmits (some uNoRoles) .read stEmpty kLegacy = true
    ∧ keyPointCheck (some uNoRoles) .read stEmpty kLegacy = false := by
  decide

/-- Claim C1 amended: the filter and the single-resource check agree for
absent identities, admins, and view-capable identities on read (given the
schema's referential integrity for the key's service reference); outside
those cases the filter's ownership branch diverges from the point check. -/
theorem claim_C1_filter_point_agreement (user : Option IdentityUser)
    (permission : Permission) (st : DbState) (k : L10nKey)
    (hk : keyServiceResolves st k)
    (h : user = none ∨ isAdmin user = true
          ∨ (permission = .read ∧ canView user = true)) :
    keyFilterAdmits user permission st k = keyPointCheck user permission st k := by
  cases user with
  | none => rfl
  | some u =>
    rcases h with h | hAdm | ⟨hperm, hview⟩
    · exact absurd h (by simp)
    · simp [keyFilterAdmits, keyPointCheck, hAdm]
    · subst hperm
      by_cases hAdm : isAdmin (some u) = true
      · simp [keyFilterAdmits, keyPointCheck, hAdm]
      · have hAdm2 : isAdmin (some u) = false := by
          simp at hAdm
          exact hAdm
        have hfilter : keyFilterAdmits (some u) .read st k = true := by
          simp [keyFilterAdmits, hAdm2, hview]
        rw [hfilter]
        rcases hsid : k.serviceId with _ | sid
        · simp [keyPointCheck, hAdm2, hsid, rolePermissionCheck, hview]
        · rcases hk with hk | ⟨s, hsmem, hk⟩
          · rw [hsid] at hk; cases hk
          · rw [hsid] at hk
            have hid : sid = s.id := by
              injection hk
            have hfound : (findService st sid).isSome := by
              rw [findService, List.find?_isSome]
              exact ⟨s, hsmem, by simp [hid]⟩
            rcases hsvc : findService st sid with _ | svc
            · rw [hsvc] at hfound; cases hfound
            · simp only [keyPointCheck, hAdm2, hsid, validateServiceAccess,
                validateServiceAccessCore, hsvc, Bool.false_eq_true, if_false]
              by_cases hown : svc.owners.contains u.sub
              · have hmem : u.sub ∈ svc.owners := by simpa using hown
                simp [hmem]
              · simp [hown, rolePermissionCheck, hview]

/-- Witness for the amended C1 at a view-capable identity on a key whose
service exists. -/
theorem claim_C1_witness :
    keyServiceResolves st1 k1
    ∧ keyFilterAdmits (some uViewer) .read st1 k1
        = keyPointCheck (some uViewer) .read st1 k1 :=
  ⟨by decide,
   claim_C1_filter_point_agreement (some uViewer) .read st1 k1 (by decide)
     (Or.inr (Or.inr ⟨rfl, by decide⟩))⟩

/-- Claim C2: evaluation of the translation update endpoint at a failing
audit write — the handler runs `db.update` and `logEvent` as two separate
top-level statements with no shared transaction, so when the event insert
fails the translation row is already updated (version 4, new value), no
Event row exists, and the caller sees a 500.  The business mutation is not
aborted, contradicting the audited-mutation contract. -/
theorem claim_C2_unaudited_mutation :
    (putTranslation (some uEditor) "t9" bodyNewValue stLegacy "ev-1" true).1
        = .serverError
    ∧ (putTranslation (some uEditor) "t9" bodyNewValue stLegacy "ev-1" true).2.events
        = []
    ∧ (putTranslation (some uEditor) "t9" bodyNewValue stLegacy "ev-1" true).2.translations
        = [{ tLegacy with value := some "New", version := 4 }] := by
  exact ⟨rfl, rfl, rfl⟩

/-- Claim C6: the dry-run import path writes nothing — for every caller,
payload and starting state, the POST handler with `dryRun = true` returns
the state and id counter unchanged, and iterating it any number of times
stays at the initial state (hence identical reports on every call, since
the report is a function of the unchanged state). -/
theorem claim_C6_dry_run_pure (user : Option IdentityUser) (serviceCode : String)
    (importKeys : List ImportKeyData) (st : DbState) (n : Nat) :
    (importPost user true serviceCode importKeys st n).state = st
    ∧ (importPost user true serviceCode importKeys st n).counter = n
    ∧ ∀ k : Nat, (dryRunStep user serviceCode importKeys)^[k] (st, n) = (st, n) := by
  have hstep : ∀ (st2 : DbState) (n2 : Nat),
      (importPost user true serviceCode importKeys st2 n2).state = st2
      ∧ (importPost user true serviceCode importKeys st2 n2).counter = n2 := by
    intro st2 n2
    unfold importPost
    cases user with
    | none => exact ⟨rfl, rfl⟩
    | some u =>
      rcases hfind : st2.services.find? (fun s => s.code == serviceCode) with _ | svc
      · simp [hfind]
      · cases hacc : validateServiceAccess (some u) svc.id .write st2 <;>
          simp [hfind, hacc]
  have hfix : dryRunStep user serviceCode importKeys (st, n) = (st, n) := by
    unfold dryRunStep
    rw [(hstep st n).1, (hstep st n).2]
  refine ⟨(hstep st n).1, (hstep st n).2, ?_⟩
  intro k
  induction k with
  | zero => rfl
  | succ k ih => rw [Function.iterate_succ_apply, hfix, ih]

/-- Helper: a fold preserves an invariant that every step preserves. -/
theorem foldlPreserve {α σ : Type _} (P : σ → Prop) (f : σ → α → σ) (l : List α)
    (hstep : ∀ s, P s → ∀ b ∈ l, P (f s b)) (s0 : σ) (h0 : P s0) :
    P (l.foldl f s0) := by
  induction l generalizing s0 with
  | nil => exact h0
  | cons b rest ih =>
    exact ih (fun s hs b2 hb2 => hstep s hs b2 (List.mem_cons_of_mem _ hb2))
      (f s0 b) (hstep s0 h0 b (List.mem_cons_self _ _))

/-- Helper: a fold whose every step fixes the accumulator returns it. -/
theorem foldlFixpoint {α σ : Type _} (f : σ → α → σ) (a : σ) (l : List α)
    (h : ∀ b ∈ l, f a b = a) : l.foldl f a = a := by
  induction l with
  | nil => rfl
  | cons b rest ih =>
    rw [List.foldl_cons, h b (List.mem_cons_self _ _)]
    exact ih (fun b2 hb2 => h b2 (List.mem_cons_of_mem _ hb2))

/-- Helper: the PUT handler either leaves the translation table unchanged or
rewrites exactly the found row with the parsed body and a version bump. -/
theorem putTranslation_state_shape (user : Option IdentityUser) (id : String)
    (body : UpdateTranslationBody) (st : DbState) (eventId : String) (fail : Bool) :
    (putTranslation user id body st eventId fail).2.translations = st.translations
    ∨ ∃ t, st.translations.find? (fun t3 => t3.id == id) = some t
        ∧ (putTranslation user id body st eventId fail).2.translations
          = st.translations.map (fun t3 =>
              if t3.id == id then
                { t with locale := body.locale,
                         value := match body.value with
                           | some v => some v
                           | none => t.value,
                         status := body.status.getD t.status,
                         version := t.version + 1 }
              else t3) := by
  cases user with
  | none => exact Or.inl rfl
  | some u =>
    simp only [putTranslation]
    split
    · exact Or.inl rfl
    · split
      · exact Or.inl rfl
      · rename_i pb hpb
        have hpb2 : pb = body := by
          unfold parseUpdateTranslationBody at hpb
          split at hpb
          · exact (Option.some.inj hpb).symm
          · cases hpb
        subst hpb2
        split
        · exact Or.inl rfl
        · rename_i t hfind
          split
          · exact Or.inl rfl
          · split
            · exact Or.inl rfl
            · split <;> exact Or.inr ⟨t, hfind, rfl⟩

/-- Helper: every translation row in the state after the PUT handler is
either an untouched original or the targeted row with version bumped by
exactly one. -/
theorem putTranslationVersions (user : Option IdentityUser) (id : String)
    (body : UpdateTranslationBody) (st : DbState) (eventId : String) (fail : Bool) :
    ∀ t2 ∈ (putTranslation user id body st eventId fail).2.translations,
      ∃ t ∈ st.translations, t2.id = t.id ∧ (t2 = t ∨ t2.version = t.version + 1) := by
  intro t2 ht2
  rcases putTranslation_state_shape user id body st eventId fail with h | ⟨t, hfind, h⟩
  · rw [h] at ht2
    exact ⟨t2, ht2, rfl, Or.inl rfl⟩
  · rw [h] at ht2
    rcases List.mem_map.mp ht2 with ⟨t0, ht0, heq⟩
    cases hc : t0.id == id with
    | false =>
      rw [hc] at heq
      simp only [Bool.false_eq_true, if_false] at heq
      subst heq
      exact ⟨t0, ht0, rfl, Or.inl rfl⟩
    | true =>
      rw [hc] at heq
      simp only [if_true] at heq
      subst heq
      exact ⟨t, List.mem_of_find?_eq_some hfind, rfl, Or.inr rfl⟩

/-- Helper: one translation step of the import either keeps a row from the
accumulator or writes a row whose version is the incoming payload's. -/
theorem applyTranslationImportMem (userId keyId : String)
    (existingTs : List Translation) (acc : DbState × Nat)
    (td : ImportTranslationData) :
    ∀ t2 ∈ (applyTranslationImport userId keyId existingTs acc td).1.translations,
      t2 ∈ acc.1.translations ∨ t2.version = td.version := by
  intro t2 ht2
  unfold applyTranslationImport at ht2
  split at ht2
  · simp only [List.mem_append, List.mem_singleton] at ht2
    rcases ht2 with h | h
    · exact Or.inl h
    · subst h
      exact Or.inr rfl
  · rename_i et hlf
    split at ht2
    · simp only at ht2
      rcases List.mem_map.mp ht2 with ⟨t0, ht0, heq⟩
      cases hc : t0.id == et.id with
      | false =>
        rw [hc] at heq
        simp only [Bool.false_eq_true, if_false] at heq
        subst heq
        exact Or.inl ht0
      | true =>
        rw [hc] at heq
        simp only [if_true] at heq
        subst heq
        exact Or.inr rfl
    · exact Or.inl ht2

/-- Helper: one key step of the import either keeps a row from the
accumulator or writes a row whose version comes from the incoming key's
translations. -/
theorem applyKeyImportMem (serviceId userId : String) (serviceKeys : List L10nKey)
    (origTranslations : List Translation) (acc : DbState × Nat)
    (kd : ImportKeyData) :
    ∀ t2 ∈ (applyKeyImport serviceId userId serviceKeys origTranslations acc kd).1.translations,
      t2 ∈ acc.1.translations ∨ ∃ td ∈ kd.translations, t2.version = td.version := by
  have hfold : ∀ (ts : List Translation) (acc1 : DbState × Nat),
      (∀ t2 ∈ acc1.1.translations,
        t2 ∈ acc.1.translations ∨ ∃ td ∈ kd.translations, t2.version = td.version) →
      ∀ t2 ∈ (kd.translations.foldl (applyTranslationImport userId kd.id ts) acc1).1.translations,
        t2 ∈ acc.1.translations ∨ ∃ td ∈ kd.translations, t2.version = td.version := by
    intro ts acc1 h0
    exact foldlPreserve
      (fun p => ∀ t2 ∈ p.1.translations,
        t2 ∈ acc.1.translations ∨ ∃ td ∈ kd.translations, t2.version = td.version)
      (applyTranslationImport userId kd.id ts) kd.translations
      (fun s hs td htd t2 ht2 => by
        rcases applyTranslationImportMem userId kd.id ts s td t2 ht2 with h | h
        · exact hs t2 h
        · exact Or.inr ⟨td, htd, h⟩)
      acc1 h0
  intro t2 ht2
  unfold applyKeyImport at ht2
  split at ht2
  · refine hfold _ _ ?_ t2 ht2
    exact fun t3 ht3 => Or.inl ht3
  · rename_i ek hek
    revert ht2
    split
    · intro ht2
      refine hfold _ _ ?_ t2 ht2
      exact fun t3 ht3 => Or.inl ht3
    · intro ht2
      refine hfold _ _ ?_ t2 ht2
      exact fun t3 ht3 => Or.inl ht3

/-- Helper: every translation row after executeImport is an original row or
carries a version copied verbatim from the incoming payload. -/
theorem executeImportVersions (serviceId : String) (importKeys : List ImportKeyData)
    (userId : String) (st : DbState) (n : Nat) :
    ∀ t2 ∈ (executeImport serviceId importKeys userId st n).1.translations,
      t2 ∈ st.translations
        ∨ ∃ kd ∈ importKeys, ∃ td ∈ kd.translations, t2.version = td.version := by
  unfold executeImport
  exact foldlPreserve
    (fun p => ∀ t2 ∈ p.1.translations,
      t2 ∈ st.translations ∨ ∃ kd ∈ importKeys, ∃ td ∈ kd.translations,
        t2.version = td.version)
    _ importKeys
    (fun s hs kd hkd t2 ht2 => by
      rcases applyKeyImportMem serviceId userId _ st.translations s kd t2 ht2 with h | ⟨td, htd, h⟩
      · exact hs t2 h
      · exact Or.inr ⟨kd, hkd, td, htd, h⟩)
    (st, n) (fun t2 ht2 => Or.inl ht2)

/-- Counterexample to C3 as stated: importing a payload whose translation
carries version 1 over an existing version-5 row rewrites the version to 1
— not old+1, and a decrease. -/
theorem claim_C3_cex :
    ((executeImport "s1" [kdDowngrade] "importer" st1 0).1.translations.map
        Translation.version) = [1]
    ∧ st1.translations.map Translation.version = [5] := by
  decide

/-- Claim C3 amended: the single-translation update endpoint increments the
stored version by exactly one (every row after a PUT is an untouched
original or the target with version old+1), while applyImport's
update_translation and create_translation paths write the incoming
payload's version verbatim — which may be lower than the stored one. -/
theorem claim_C3_version_semantics :
    (∀ user id body st eventId fail,
      ∀ t2 ∈ (putTranslation user id body st eventId fail).2.translations,
        ∃ t ∈ st.translations, t2.id = t.id ∧ (t2 = t ∨ t2.version = t.version + 1))
    ∧ (∀ serviceId importKeys userId st n,
      ∀ t2 ∈ (executeImport serviceId importKeys userId st n).1.translations,
        t2 ∈ st.translations
          ∨ ∃ kd ∈ importKeys, ∃ td ∈ kd.translations, t2.version = td.version) :=
  ⟨putTranslationVersions, executeImportVersions⟩

/-- Witness for the amended C3 at the concrete PUT and import runs. -/
theorem claim_C3_witness :
    (∃ t ∈ stLegacy.translations, tLegacyUpdated.id = t.id
        ∧ (tLegacyUpdated = t ∨ tLegacyUpdated.version = t.version + 1))
    ∧ (t1Downgraded ∈ st1.translations
        ∨ ∃ kd ∈ [kdDowngrade], ∃ td ∈ kd.translations,
            t1Downgraded.version = td.version) :=
  ⟨claim_C3_version_semantics.1 (some uEditor) "t9" bodyNewValue stLegacy "ev-1" true
      tLegacyUpdated (by decide),
   claim_C3_version_semantics.2 "s1" [kdDowngrade] "importer" st1 0
      t1Downgraded (by decide)⟩

/-- Counterexample to C5 as stated: an incoming key equal to the stored one
with the same tag set in a different order (a set-equal tag list) is
classified as update_key — it appears in the report, and applyImport
performs a write with an audit event — because the code compares tags with
JSON.stringify, which is order-sensitive. -/
theorem claim_C5_cex :
    kTags.tags.Perm kdTagsReordered.tags
    ∧ (generateDiffReport "s1" stTags [kdTagsReordered]).summary.keysToUpdate = 1
    ∧ (generateDiffReport "s1" stTags [kdTagsReordered]).changes.length = 1
    ∧ (executeImport "s1" [kdTagsReordered] "importer" stTags 0).1.events.length = 1 := by
  refine ⟨?_, by decide, by decide, by decide⟩
  decide

/-- Claim C5 amended: a no-op is an incoming key whose fields equal the
stored ones under the code's comparisons — keyName and status by equality,
namespaceId by JavaScript strict equality (two absent namespaces never
compare equal because null !== undefined), and tags by order- and
duplicate-sensitive list equality (JSON.stringify) — with every incoming
translation equal to the stored one of its locale in value, status and
version.  Such a key contributes nothing to the diff report, and
applyImport leaves the state and the event table untouched for it. -/
theorem claim_C5_noop_invisible (serviceId userId : String) (st : DbState)
    (kd : ImportKeyData) (ek : L10nKey) (n : Nat)
    (hek : lastFind? (fun k => k.id == kd.id)
        (st.keys.filter (fun k => k.serviceId == some serviceId)) = some ek)
    (hkey : jsKeyChanged ek kd = false)
    (htr : ∀ td ∈ kd.translations,
        ∃ et, lastFind? (fun t => t.locale == td.locale)
            (st.translations.filter (fun t => t.keyId == ek.id)) = some et
          ∧ jsTranslationChanged et td = false) :
    diffKeyStep (st.keys.filter (fun k => k.serviceId == some serviceId))
        st.translations kd = (zeroSummary, [])
    ∧ applyKeyImport serviceId userId
        (st.keys.filter (fun k => k.serviceId == some serviceId))
        st.translations (st, n) kd = (st, n) := by
  constructor
  · unfold diffKeyStep
    simp only [hek, hkey, Bool.false_eq_true, if_false]
    refine foldlFixpoint _ _ _ ?_
    intro td htd
    obtain ⟨et, hlf, hch⟩ := htr td htd
    unfold diffTranslationStep
    simp only [hlf, hch, Bool.false_eq_true, if_false]
    simp [addSummary, zeroSummary]
  · unfold applyKeyImport
    simp only [hek, hkey, Bool.false_eq_true, if_false]
    refine foldlFixpoint _ _ _ ?_
    intro td htd
    obtain ⟨et, hlf, hch⟩ := htr td htd
    unfold applyTranslationImport
    simp only [hlf, hch, Bool.false_eq_true, if_false]

/-- Witness for the amended C5: the concrete identical key/translation pair
over st1 is invisible in the diff and untouched by the import. -/
theorem claim_C5_witness :
    diffKeyStep (st1.keys.filter (fun k => k.serviceId == some "s1"))
        st1.translations kdNoop = (zeroSummary, [])
    ∧ applyKeyImport "s1" "importer"
        (st1.keys.filter (fun k => k.serviceId == some "s1"))
        st1.translations (st1, 0) kdNoop = (st1, 0) := by
  refine claim_C5_noop_invisible "s1" "importer" st1 kdNoop k1 0 (by decide) (by decide) ?_
  intro td htd
  have htd2 : td = { locale := "en", value := "Hello", status := "active", version := 5 } := by
    simpa [kdNoop] using htd
  subst htd2
  exact ⟨t1, by decide, by decide⟩

/-- Helper: filtering on the projected value of a member yields exactly that
member when the projection is duplicate-free over the list. -/
theorem filterEqSingletonOfNodup {α β : Type _} [BEq β] [LawfulBEq β] (f : α → β)
    (l : List α) (a : α) (hnd : (l.map f).Nodup) (ha : a ∈ l) :
    l.filter (fun x => f x == f a) = [a] := by
  induction l with
  | nil => cases ha
  | cons b rest ih =>
    rw [List.map_cons, List.nodup_cons] at hnd
    rcases List.mem_cons.mp ha with rfl | ha2
    · rw [List.filter_cons, if_pos (by simp)]
      have hrest : rest.filter (fun x => f x == f a) = [] := by
        rw [List.filter_eq_nil_iff]
        intro x hx hbeq
        exact hnd.1 (eq_of_beq hbeq ▸ List.mem_map_of_mem f hx)
      rw [hrest]
    · have hfb : ¬((f b == f a) = true) := by
        intro hbeq
        refine hnd.1 ?_
        rw [eq_of_beq hbeq]
        exact List.mem_map_of_mem f ha2
      rw [List.filter_cons, if_neg hfb]
      exact ih hnd.2 ha2

/-- Helper: the JavaScript-Map lookup finds exactly the unique member with a
given projected value. -/
theorem lastFindEqOfNodup {α β : Type _} [BEq β] [LawfulBEq β] (f : α → β)
    (l : List α) (a : α) (hnd : (l.map f).Nodup) (ha : a ∈ l) :
    lastFind? (fun x => f x == f a) l = some a := by
  unfold lastFind?
  rw [filterEqSingletonOfNodup f l a hnd ha]
  rfl

/-- Helper: membership in the export inner-join rows. -/
theorem exportRowsMem (serviceId : String) (st : DbState) (k : L10nKey)
    (t : Translation) :
    (k, t) ∈ exportRows serviceId st ↔
      k ∈ st.keys.filter (fun k2 => k2.serviceId == some serviceId)
        ∧ t ∈ st.translations.filter (fun t2 => t2.keyId == k.id) := by
  unfold exportRows
  rw [List.mem_flatMap]
  constructor
  · rintro ⟨k2, hk2, hmem⟩
    rcases List.mem_map.mp hmem with ⟨t2, ht2, heq⟩
    injection heq with h1 h2
    subst h1
    subst h2
    exact ⟨hk2, ht2⟩
  · rintro ⟨hk, ht⟩
    exact ⟨k, hk, List.mem_map.mpr ⟨t, ht, rfl⟩⟩

/-- Helper: every entry produced by the export grouping fold takes its key
fields from one join row's key and each of its translation entries from a
join row of a key with the same id. -/
theorem groupFoldMem (rows0 : List (L10nKey × Translation)) :
    ∀ (rows : List (L10nKey × Translation)) (acc : List ImportKeyData),
      (∀ r ∈ rows, r ∈ rows0) →
      (∀ e ∈ acc, ∃ k,
        (∃ t0, (k, t0) ∈ rows0)
        ∧ e.id = k.id ∧ e.keyName = k.keyName
        ∧ e.namespaceId = exportNamespaceId k.namespaceId
        ∧ e.tags = k.tags ∧ e.status = k.status
        ∧ ∀ en ∈ e.translations, ∃ k2 t, ((k2, t) ∈ rows0 ∧ k2.id = k.id)
            ∧ en = exportEntryOfTranslation t) →
      ∀ e ∈ List.foldl
        (fun acc kt =>
          if acc.any (fun e => e.id == kt.1.id) then
            acc.map (fun e =>
              if e.id == kt.1.id then
                { e with translations := e.translations ++ [exportEntryOfTranslation kt.2] }
              else e)
          else
            acc ++ [{ id := kt.1.id, keyName := kt.1.keyName,
                      namespaceId := exportNamespaceId kt.1.namespaceId,
                      tags := kt.1.tags, status := kt.1.status,
                      translations := [exportEntryOfTranslation kt.2] }])
        acc rows, ∃ k,
        (∃ t0, (k, t0) ∈ rows0)
        ∧ e.id = k.id ∧ e.keyName = k.keyName
        ∧ e.namespaceId = exportNamespaceId k.namespaceId
        ∧ e.tags = k.tags ∧ e.status = k.status
        ∧ ∀ en ∈ e.translations, ∃ k2 t, ((k2, t) ∈ rows0 ∧ k2.id = k.id)
            ∧ en = exportEntryOfTranslation t := by
  intro rows
  induction rows with
  | nil =>
    intro acc hsub hacc
    simpa using hacc
  | cons r rest ih =>
    intro acc hsub hacc
    rw [List.foldl_cons]
    refine ih _ (fun r2 hr2 => hsub r2 (List.mem_cons_of_mem _ hr2)) ?_
    intro e he
    simp only at he
    split at he
    · rcases List.mem_map.mp he with ⟨e0, he0, heq⟩
      obtain ⟨k, hkrow, hid, hname, hns, htags, hstat, htr⟩ := hacc e0 he0
      cases hc : e0.id == r.1.id with
      | false =>
        rw [hc] at heq
        simp only [Bool.false_eq_true, if_false] at heq
        subst heq
        exact ⟨k, hkrow, hid, hname, hns, htags, hstat, htr⟩
      | true =>
        rw [hc] at heq
        simp only [if_true] at heq
        subst heq
        refine ⟨k, hkrow, hid, hname, hns, htags, hstat, ?_⟩
        intro en hen
        rcases List.mem_append.mp hen with hen2 | hen2
        · exact htr en hen2
        · rcases List.mem_singleton.mp hen2 with rfl
          refine ⟨r.1, r.2, ⟨hsub r (List.mem_cons_self _ _), ?_⟩, rfl⟩
          rw [← eq_of_beq hc]
          exact hid
    · rcases List.mem_append.mp he with he2 | he2
      · exact hacc e he2
      · rcases List.mem_singleton.mp he2 with rfl
        refine ⟨r.1, ⟨r.2, hsub r (List.mem_cons_self _ _)⟩, rfl, rfl, rfl, rfl, rfl, ?_⟩
        intro en hen
        rcases List.mem_singleton.mp hen with rfl
        exact ⟨r.1, r.2, ⟨hsub r (List.mem_cons_self _ _), rfl⟩, rfl⟩

/-- Helper: every key of the default export takes its fields from one stored
key of the service and each of its translation entries from one stored
translation of that key. -/
theorem generateExportDataSpec (serviceId : String) (st : DbState) :
    ∀ kd ∈ generateExportData serviceId st, ∃ k,
      k ∈ st.keys.filter (fun k2 => k2.serviceId == some serviceId)
      ∧ kd.id = k.id ∧ kd.keyName = k.keyName
      ∧ kd.namespaceId = exportNamespaceId k.namespaceId
      ∧ kd.tags = k.tags ∧ kd.status = k.status
      ∧ ∀ en ∈ kd.translations, ∃ t,
          t ∈ st.translations.filter (fun t2 => t2.keyId == k.id)
          ∧ en = exportEntryOfTranslation t := by
  intro kd hkd
  simp only [generateExportData] at hkd
  rcases List.mem_map.mp hkd with ⟨e0, he0, heq⟩
  have he0g : e0 ∈ groupExportRows (exportRows serviceId st) :=
    (List.mem_insertionSort _).mp he0
  have hΦ : ∀ e ∈ groupExportRows (exportRows serviceId st), ∃ k,
      (∃ t0, (k, t0) ∈ exportRows serviceId st)
      ∧ e.id = k.id ∧ e.keyName = k.keyName
      ∧ e.namespaceId = exportNamespaceId k.namespaceId
      ∧ e.tags = k.tags ∧ e.status = k.status
      ∧ ∀ en ∈ e.translations, ∃ k2 t,
          ((k2, t) ∈ exportRows serviceId st ∧ k2.id = k.id)
          ∧ en = exportEntryOfTranslation t := by
    unfold groupExportRows
    exact groupFoldMem (exportRows serviceId st) (exportRows serviceId st) []
      (fun r hr => hr) (by simp)
  obtain ⟨k, ⟨t0, ht0⟩, hid, hname, hns, htags, hstat, htr⟩ := hΦ e0 he0g
  have hkmem := ((exportRowsMem serviceId st k t0).mp ht0).1
  subst heq
  refine ⟨k, hkmem, hid, hname, hns, htags, hstat, ?_⟩
  intro en hen
  have hen2 : en ∈ e0.translations := (List.mem_insertionSort _).mp hen
  obtain ⟨k2, t, ⟨hrow, hk2id⟩, henq⟩ := htr en hen2
  have hmemt := ((exportRowsMem serviceId st k2 t).mp hrow).2
  refine ⟨t, ?_, henq⟩
  rw [List.mem_filter] at hmemt ⊢
  refine ⟨hmemt.1, ?_⟩
  rw [← hk2id]
  exact hmemt.2

/-- Counterexample to C4 as stated: a service whose key has a null
`namespaceId` breaks the round trip — export maps null to an absent field
(`namespaceId || undefined`), and the diff compares the stored null against
the reparsed undefined with strict inequality, so the unchanged key comes
back as an update_key entry and keysToUpdate = 1. -/
theorem claim_C4_cex :
    (exportThenReparse "s1" stNullNs).map
        (fun ks => (generateDiffReport "s1" stNullNs ks).summary)
      = some { keysToCreate := 0, keysToUpdate := 1, translationsToCreate := 0,
               translationsToUpdate := 0 } := by
  decide

/-- Claim C4 amended: exporting a service with the default filter criteria
and feeding the reparsed payload back to the diff yields zero changes and
all four counters zero, provided the service state is well formed for the
round trip: key ids are unique, each key's translations have distinct
locales, valid locales/statuses/positive versions and non-null values, keys
have non-empty ids and names, valid statuses, and — the condition the
counterexample shows necessary — every key has a non-null, non-empty
namespaceId. -/
theorem claim_C4_round_trip (serviceId : String) (st : DbState)
    (hids : ((st.keys.filter (fun k => k.serviceId == some serviceId)).map L10nKey.id).Nodup)
    (hlocs : ∀ k ∈ st.keys.filter (fun k => k.serviceId == some serviceId),
        ((st.translations.filter (fun t => t.keyId == k.id)).map Translation.locale).Nodup)
    (hnsp : ∀ k ∈ st.keys.filter (fun k => k.serviceId == some serviceId),
        ∃ s, k.namespaceId = some s ∧ (s == "") = false)
    (hkeyzod : ∀ k ∈ st.keys.filter (fun k => k.serviceId == some serviceId),
        (k.id == "") = false ∧ (k.keyName == "") = false
        ∧ translationStatusEnum.contains k.status = true)
    (htzod : ∀ k ∈ st.keys.filter (fun k => k.serviceId == some serviceId),
        ∀ t ∈ st.translations.filter (fun t2 => t2.keyId == k.id),
          (∃ v, t.value = some v)
          ∧ supportedLocales.contains t.locale = true
          ∧ translationStatusEnum.contains t.status = true
          ∧ t.version ≥ 1) :
    exportThenReparse serviceId st = some (generateExportData serviceId st)
    ∧ (generateDiffReport serviceId st (generateExportData serviceId st)).summary
        = zeroSummary
    ∧ (generateDiffReport serviceId st (generateExportData serviceId st)).changes
        = [] := by
  have hspec := generateExportDataSpec serviceId st
  have hparse : exportThenReparse serviceId st = some (generateExportData serviceId st) := by
    unfold exportThenReparse parseImportKeys
    rw [if_pos]
    rw [List.all_eq_true]
    intro kd hkd
    obtain ⟨k, hk, hid, hname, hns, htags, hstat, htr⟩ := hspec kd hkd
    unfold zodParseKeyOk
    obtain ⟨hzid, hzname, hzstat⟩ := hkeyzod k hk
    have h1 : (kd.id == "") = false := by rw [hid]; exact hzid
    have h2 : (kd.keyName == "") = false := by rw [hname]; exact hzname
    have h3 : translationStatusEnum.contains kd.status = true := by
      rw [hstat]; exact hzstat
    have h4 : kd.translations.all zodParseTranslationOk = true := by
      rw [List.all_eq_true]
      intro en hen
      obtain ⟨t, htmem, hteq⟩ := htr en hen
      obtain ⟨_, hloc, hst, hver⟩ := htzod k hk t htmem
      subst hteq
      have hlocm : t.locale ∈ supportedLocales := by simpa using hloc
      have hstm : t.status ∈ translationStatusEnum := by simpa using hst
      unfold zodParseTranslationOk exportEntryOfTranslation
      simp [hlocm, hstm, hver]
    have h3m : kd.status ∈ translationStatusEnum := by simpa using h3
    simp [h1, h2, h3m, h4]
  refine ⟨hparse, ?_, ?_⟩
  all_goals {
    have hparts : ∀ kd ∈ generateExportData serviceId st,
        diffKeyStep (st.keys.filter (fun k => k.serviceId == some serviceId))
          st.translations kd = (zeroSummary, []) := by
      intro kd hkd
      obtain ⟨k, hk, hid, hname, hns, htags, hstat, htr⟩ := hspec kd hkd
      unfold diffKeyStep
      have hlook : lastFind? (fun k2 => k2.id == kd.id)
          (st.keys.filter (fun k => k.serviceId == some serviceId)) = some k := by
        rw [hid]
        exact lastFindEqOfNodup L10nKey.id _ k hids hk
      rw [hlook]
      have hchanged : jsKeyChanged k kd = false := by
        obtain ⟨s, hs, hse⟩ := hnsp k hk
        unfold jsKeyChanged jsNsChanged
        rw [hname, htags, hstat, hns, hs]
        simp [exportNamespaceId, hse]
      simp only [hchanged, Bool.false_eq_true, if_false]
      refine foldlFixpoint _ _ _ ?_
      intro td htd
      obtain ⟨t, htmem, hteq⟩ := htr td htd
      subst hteq
      unfold diffTranslationStep
      have hlook2 : lastFind? (fun t2 => t2.locale == (exportEntryOfTranslation t).locale)
          (st.translations.filter (fun t2 => t2.keyId == k.id)) = some t := by
        show lastFind? (fun t2 => t2.locale == t.locale)
          (st.translations.filter (fun t2 => t2.keyId == k.id)) = some t
        exact lastFindEqOfNodup Translation.locale _ t (hlocs k hk) htmem
      rw [hlook2]
      have hch : jsTranslationChanged t (exportEntryOfTranslation t) = false := by
        obtain ⟨⟨v, hv⟩, _, _, _⟩ := htzod k hk t htmem
        unfold jsTranslationChanged exportEntryOfTranslation
        rw [hv]
        simp
      simp only [hch, Bool.false_eq_true, if_false]
      simp [addSummary, zeroSummary]
    simp only [generateDiffReport]
    refine foldlFixpoint _ _ _ ?_
    intro p hp
    rcases List.mem_map.mp hp with ⟨kd, hkd, rfl⟩
    rw [hparts kd hkd]
    simp [addSummary, zeroSummary]
  }

/-- Witness for the amended C4 at the concrete well-formed service state. -/
theorem claim_C4_witness :
    exportThenReparse "s1" st1 = some (generateExportData "s1" st1)
    ∧ (generateDiffReport "s1" st1 (generateExportData "s1" st1)).summary = zeroSummary
    ∧ (generateDiffReport "s1" st1 (generateExportData "s1" st1)).changes = [] := by
  refine claim_C4_round_trip "s1" st1 (by decide) (by decide) ?_ (by decide) ?_
  · intro k hk
    have hk2 : k = k1 := by simpa [st1, k1] using hk
    subst hk2
    exact ⟨"ns1", rfl, rfl⟩
  · intro k hk t ht
    have hk2 : k = k1 := by simpa [st1, k1] using hk
    subst hk2
    have ht2 : t = t1 := by simpa [st1, t1, k1] using ht
    subst ht2
    exact ⟨⟨"Hello", rfl⟩, by decide, by decide, by decide⟩

set_option maxHeartbeats 4000000
set_option maxRecDepth 100000

/-- Counterexample to C7 as stated: redaction is neither idempotent nor
pattern-removing.  (1) A 42-character payload of six short emails grows to
102 characters after email replacement, so a second application replaces it
with the length marker — redact(redact x) differs from redact(x) in the
`contact` field.  (2) The string with one boundary-delimited SSN, a second
SSN directly followed by a URL, and that URL matches the SSN pattern, yet
its redaction still does: patterns are tested against the original but
replaced in the working copy, and the URL's replacement puts a `[` after
the second SSN, turning its failed trailing word boundary into a match. -/
theorem claim_C7_cex :
    redactSensitiveData (redactSensitiveData evEmailRepeat defaultRedactionConfig)
        defaultRedactionConfig
      ≠ redactSensitiveData evEmailRepeat defaultRedactionConfig
    ∧ hasMatchStr ssnPattern piiMixedValue = true
    ∧ eventBeforeStringField (redactSensitiveData evPiiMixed defaultRedactionConfig) "note"
        = some "[SSN_REDACTED] 123-45-6789[URLWITHPARAMS_REDACTED]"
    ∧ hasMatchStr ssnPattern "[SSN_REDACTED] 123-45-6789[URLWITHPARAMS_REDACTED]"
        = true := by
  refine ⟨fun h => ?_, by decide, by decide, by decide⟩
  exact absurd (congrArg (fun ev => eventBeforeStringField ev "contact") h) (by decide)

/-- Claim C7 amended: already-inserted redaction markers are not further
altered — every category marker, the custom marker, the sensitive-field
marker and a length marker are fixed points of redactStringValue under the
default config — and the spec's concrete scenarios hold (the 150-character
value becomes the length marker, an embedded email becomes
`[EMAIL_REDACTED]` with surrounding text preserved, a sensitive field name
is replaced wholesale); but neither idempotence nor the
detected-pattern-removal guarantee holds in general (see the
counterexample). -/
theorem claim_C7_markers_and_scenarios :
    (piiPatterns.all (fun pm =>
        redactStringValue (patternMarker pm.1) defaultRedactionConfig
          == patternMarker pm.1)) = true
    ∧ redactStringValue "[REDACTED: sensitive field name]" defaultRedactionConfig
        = "[REDACTED: sensitive field name]"
    ∧ redactStringValue "[CUSTOM_PII_REDACTED]" defaultRedactionConfig
        = "[CUSTOM_PII_REDACTED]"
    ∧ redactStringValue (lengthMarker 150 100) defaultRedactionConfig
        = lengthMarker 150 100
    ∧ redactStringValue (String.mk (List.replicate 150 'a')) defaultRedactionConfig
        = lengthMarker 150 100
    ∧ redactStringValue "call support@x.com" defaultRedactionConfig
        = "call [EMAIL_REDACTED]"
    ∧ redactObjectFields (.obj [("password", .str "hunter2"), ("version", .num 5)])
        defaultRedactionConfig
        = .obj [("password", .str "[REDACTED: sensitive field name]"),
                ("version", .num 5)] := by
  exact ⟨by decide, by decide, by decide, by decide, by decide, by decide, rfl⟩

end TextMatch
